import Mathlib

/-!
Verification development for the snowflake-card repository.

The Python sources (`snowflake-card/geo.py` and
`snowflake-card/sketch_snowflake_card.py`) are embedded shallowly below:
floating-point arithmetic is modelled over the real numbers, Python's
`ZeroDivisionError` / `raise` are modelled with `Option` / error components,
and the pseudo-random source `vsk.random` is modelled by an explicit stream
of unit-interval draws.
-/

open Real

namespace Snowflake

/-- A 2-D point, as an (x, y) pair of reals (Python tuples of floats). -/
abbrev Point : Type := ℝ × ℝ

/-- Model of `math.radians`: degrees to radians. -/
noncomputable def radians (d : ℝ) : ℝ := d * π / 180

/-- Model of `math.degrees`: radians to degrees. -/
noncomputable def degrees (r : ℝ) : ℝ := r * 180 / π

/-- Model of `math.atan2 y x`: the angle of the point `(x, y)` in `(-π, π]`,
written by cases exactly as the C library function behaves on reals. -/
noncomputable def atan2 (y x : ℝ) : ℝ :=
  if 0 < x then Real.arctan (y / x)
  else if x < 0 then
    (if 0 ≤ y then Real.arctan (y / x) + π else Real.arctan (y / x) - π)
  else
    (if 0 < y then π / 2 else if y < 0 then -(π / 2) else 0)

/-- Embedding of `geo.calculate_angle`: the signed angle between the vectors
`p2→p1` and `p2→p3`, in degrees, via `atan2(cross, dot)`; when `use_360` is
set, negative results are shifted by 360. -/
noncomputable def calculate_angle (p1 p2 p3 : Point) (use_360 : Bool) : ℝ :=
  let vector1 : ℝ × ℝ := (p1.1 - p2.1, p1.2 - p2.2)
  let vector2 : ℝ × ℝ := (p3.1 - p2.1, p3.2 - p2.2)
  let dot_product := vector1.1 * vector2.1 + vector1.2 * vector2.2
  let cross_product := vector1.1 * vector2.2 - vector1.2 * vector2.1
  let angle_radians := atan2 cross_product dot_product
  let angle_degrees := degrees angle_radians
  if use_360 = true ∧ angle_degrees < 0 then angle_degrees + 360 else angle_degrees

/-! ### Helper facts about `atan2` -/

lemma atan2_one_one : atan2 1 1 = π / 4 := by
  simp [atan2, Real.arctan_one]

lemma atan2_one_zero : atan2 1 0 = π / 2 := by
  norm_num [atan2]

lemma atan2_zero_neg_one : atan2 0 (-1) = π := by
  norm_num [atan2, Real.arctan_zero]

lemma atan2_one_neg_one : atan2 1 (-1) = 3 * π / 4 := by
  have h : Real.arctan ((1 : ℝ) / (-1 : ℝ)) = -(π / 4) := by
    rw [show (1 : ℝ) / (-1 : ℝ) = -(1 : ℝ) by norm_num, Real.arctan_neg,
      Real.arctan_one]
  simp only [atan2]
  rw [if_neg (by norm_num : ¬ (0 : ℝ) < -1), if_pos (by norm_num : (-1 : ℝ) < 0),
    if_pos (by norm_num : (0 : ℝ) ≤ 1), h]
  ring

lemma atan2_mem_Ioc (y x : ℝ) : -π < atan2 y x ∧ atan2 y x ≤ π := by
  have hpi : 0 < π := Real.pi_pos
  have harctan_lt : ∀ t : ℝ, Real.arctan t < π / 2 := Real.arctan_lt_pi_div_two
  have harctan_gt : ∀ t : ℝ, -(π / 2) < Real.arctan t := Real.neg_pi_div_two_lt_arctan
  unfold atan2
  split
  · constructor
    · linarith [harctan_gt (y / x)]
    · linarith [harctan_lt (y / x)]
  · split
    · split
      · -- x < 0, 0 ≤ y : arctan (y/x) ≤ 0 since y/x ≤ 0
        rename_i hx0 hxneg hy
        have hyx : y / x ≤ 0 := div_nonpos_of_nonneg_of_nonpos ‹0 ≤ y› (le_of_lt hxneg)
        have : Real.arctan (y / x) ≤ 0 := by
          have := Real.arctan_strictMono.monotone hyx
          simpa [Real.arctan_zero] using this
        constructor
        · linarith [harctan_gt (y / x)]
        · linarith
      · -- x < 0, y < 0 : arctan (y/x) > 0 since y/x > 0
        rename_i hx0 hxneg hy
        have hyneg : y < 0 := lt_of_not_le hy
        have hyx : 0 < y / x := div_pos_of_neg_of_neg hyneg hxneg
        have : 0 < Real.arctan (y / x) := by
          have := Real.arctan_strictMono hyx
          simpa [Real.arctan_zero] using this
        constructor
        · linarith
        · linarith [harctan_lt (y / x)]
    · split
      · constructor <;> linarith
      · split
        · constructor <;> linarith
        · constructor <;> linarith

/-! ### Helper facts about `degrees`, `radians` and `calculate_angle` -/

lemma degrees_lt_degrees {a b : ℝ} (h : a < b) : degrees a < degrees b := by
  unfold degrees
  have hpi : 0 < π := Real.pi_pos
  rw [div_lt_div_iff₀ hpi hpi]
  nlinarith

lemma degrees_le_degrees {a b : ℝ} (h : a ≤ b) : degrees a ≤ degrees b := by
  rcases eq_or_lt_of_le h with rfl | h
  · exact le_refl _
  · exact le_of_lt (degrees_lt_degrees h)

lemma degrees_pi : degrees π = 180 := by
  unfold degrees
  field_simp

lemma degrees_neg_pi : degrees (-π) = -180 := by
  unfold degrees
  field_simp
  ring

lemma degrees_pi_div_two : degrees (π / 2) = 90 := by
  unfold degrees
  field_simp
  ring

lemma degrees_pi_div_four : degrees (π / 4) = 45 := by
  unfold degrees
  field_simp
  ring

/-- `calculate_angle` in `use_360` mode always lands in `[0, 360)`. -/
lemma calculate_angle_mem (p1 p2 p3 : Point) :
    0 ≤ calculate_angle p1 p2 p3 true ∧ calculate_angle p1 p2 p3 true < 360 := by
  unfold calculate_angle
  set cr := (p1.1 - p2.1) * (p3.2 - p2.2) - (p1.2 - p2.2) * (p3.1 - p2.1) with hcr
  set dt := (p1.1 - p2.1) * (p3.1 - p2.1) + (p1.2 - p2.2) * (p3.2 - p2.2) with hdt
  have hr := atan2_mem_Ioc cr dt
  have hlow : -180 < degrees (atan2 cr dt) := by
    have := degrees_lt_degrees hr.1
    rwa [degrees_neg_pi] at this
  have hhigh : degrees (atan2 cr dt) ≤ 180 := by
    have := degrees_le_degrees hr.2
    rwa [degrees_pi] at this
  simp only
  split
  · rename_i hcond
    constructor
    · linarith [hcond.2]
    · linarith
  · rename_i hcond
    push_neg at hcond
    have hge := hcond trivial
    rw [← hcr, ← hdt] at hge
    exact ⟨hge, by linarith⟩

lemma calculate_angle_45 : calculate_angle (1, 0) (0, 0) (1, 1) true = 45 := by
  unfold calculate_angle
  norm_num [atan2_one_one, degrees_pi_div_four]

lemma calculate_angle_90 : calculate_angle (1, 0) (0, 0) (0, 1) true = 90 := by
  unfold calculate_angle
  norm_num [atan2_one_zero, degrees_pi_div_two]

lemma calculate_angle_180 : calculate_angle (1, 0) (0, 0) (-1, 0) true = 180 := by
  unfold calculate_angle
  norm_num [atan2_zero_neg_one, degrees_pi]

/-! ### `geo.py`: mitered polygon offsetting -/

/-- Embedding of `geo.offset_point`. Python raises `ZeroDivisionError` when
`math.sin(bisect_angle)` is exactly zero; that failure is modelled by `none`. -/
noncomputable def offset_point (p1 p2 p3 : Point) (distance : ℝ) : Option Point :=
  let angle := calculate_angle p1 p2 p3 true
  let bisect_angle := radians (angle / 2)
  if Real.sin bisect_angle = 0 then none
  else
    let offset_distance := distance / Real.sin bisect_angle
    let direction_angle := atan2 (p2.2 - p1.2) (p2.1 - p1.1) + bisect_angle
    some (p2.1 + offset_distance * Real.cos direction_angle,
          p2.2 + offset_distance * Real.sin direction_angle)

/-- The spec's stated rule for the offset vertex, written from the spec's
words: identical to `offset_point` except that the direction angle is claimed
to be `atan2 (next.y - prev.y) (next.x - prev.x) + θ/2`. -/
noncomputable def offset_point_spec (p1 p2 p3 : Point) (distance : ℝ) : Option Point :=
  let cross := (p1.1 - p2.1) * (p3.2 - p2.2) - (p1.2 - p2.2) * (p3.1 - p2.1)
  let dot := (p1.1 - p2.1) * (p3.1 - p2.1) + (p1.2 - p2.2) * (p3.2 - p2.2)
  let theta0 := degrees (atan2 cross dot)
  let theta := if theta0 < 0 then theta0 + 360 else theta0
  if Real.sin (radians (theta / 2)) = 0 then none
  else
    let magnitude := distance / Real.sin (radians (theta / 2))
    let direction := atan2 (p3.2 - p1.2) (p3.1 - p1.1) + radians (theta / 2)
    some (p2.1 + magnitude * Real.cos direction,
          p2.2 + magnitude * Real.sin direction)

/-- The amended rule: as `offset_point_spec` but with the direction angle
based at `atan2 (cur.y - prev.y) (cur.x - prev.x)`, as the source computes. -/
noncomputable def offset_point_amended (p1 p2 p3 : Point) (distance : ℝ) : Option Point :=
  let cross := (p1.1 - p2.1) * (p3.2 - p2.2) - (p1.2 - p2.2) * (p3.1 - p2.1)
  let dot := (p1.1 - p2.1) * (p3.1 - p2.1) + (p1.2 - p2.2) * (p3.2 - p2.2)
  let theta0 := degrees (atan2 cross dot)
  let theta := if theta0 < 0 then theta0 + 360 else theta0
  if Real.sin (radians (theta / 2)) = 0 then none
  else
    let magnitude := distance / Real.sin (radians (theta / 2))
    let direction := atan2 (p2.2 - p1.2) (p2.1 - p1.1) + radians (theta / 2)
    some (p2.1 + magnitude * Real.cos direction,
          p2.2 + magnitude * Real.sin direction)

/-- The de-duplication step at the top of `geo.polygon_coord_windows`:
drop the closing coordinate when it repeats the first one.  (Shapely
exterior rings are non-empty; the empty list is returned unchanged.) -/
noncomputable def dedup_ring (coords : List Point) : List Point :=
  if coords.head? = coords.getLast? then coords.dropLast else coords

/-- The cyclic triple windows yielded by `geo.polygon_coord_windows` over the
de-duplicated coordinates `c` (meaningful for `c.length ≥ 2`):
`(c[-1], c[0], c[1])`, then `(c[i], c[i+1], c[i+2])` for `i < len - 2`,
then `(c[-2], c[-1], c[0])`. -/
noncomputable def coord_windows (c : List Point) : List (Point × Point × Point) :=
  [(c.getD (c.length - 1) (0, 0), c.getD 0 (0, 0), c.getD 1 (0, 0))] ++
    ((List.range (c.length - 2)).map fun i =>
      (c.getD i (0, 0), c.getD (i + 1) (0, 0), c.getD (i + 2) (0, 0))) ++
    [(c.getD (c.length - 2) (0, 0), c.getD (c.length - 1) (0, 0), c.getD 0 (0, 0))]

/-- Embedding of `geo.polygon_coord_windows` on the raw exterior coordinates. -/
noncomputable def polygon_coord_windows (coords : List Point) :
    List (Point × Point × Point) :=
  coord_windows (dedup_ring coords)

/-- The body of the `try/except ZeroDivisionError` in
`geo.create_offset_polygon`: the offset vertex, or the original `p2` when
`offset_point` fails with a division by zero. -/
noncomputable def offset_or_keep (p1 p2 p3 : Point) (d : ℝ) : Point :=
  (offset_point p1 p2 p3 d).getD p2

/-- Embedding of `geo.create_offset_polygon` (the ring of the returned
polygon): one output vertex per coordinate window, falling back to the
original vertex on a division failure. -/
noncomputable def create_offset_polygon (coords : List Point) (d : ℝ) : List Point :=
  (polygon_coord_windows coords).map fun w => offset_or_keep w.1 w.2.1 w.2.2 d

lemma coord_windows_length (c : List Point) (h : 2 ≤ c.length) :
    (coord_windows c).length = c.length := by
  unfold coord_windows
  simp [List.length_append]
  omega

lemma offset_or_keep_of_sin_eq_zero (p1 p2 p3 : Point) (d : ℝ)
    (h : Real.sin (radians (calculate_angle p1 p2 p3 true / 2)) = 0) :
    offset_or_keep p1 p2 p3 d = p2 := by
  unfold offset_or_keep offset_point
  simp only [h, if_pos]
  rfl

lemma radians_45 : radians 45 = π / 4 := by
  unfold radians; ring

lemma sqrt_two_div_two_ne_zero : Real.sqrt 2 / 2 ≠ 0 := by positivity

lemma offset_point_ex : offset_point (1, 0) (0, 0) (0, 1) 1 = some (-1, -1) := by
  have hs2 : Real.sqrt 2 ≠ 0 := by positivity
  unfold offset_point
  rw [calculate_angle_90]
  norm_num [radians_45, Real.sin_pi_div_four, sqrt_two_div_two_ne_zero,
    atan2_zero_neg_one, Real.cos_add, Real.sin_add, Real.cos_pi, Real.sin_pi,
    Real.cos_pi_div_four, Real.sin_pi_div_four]
  have hmul : Real.sqrt 2 * Real.sqrt 2 = 2 := Real.mul_self_sqrt (by norm_num)
  linear_combination hmul / 2

lemma offset_point_spec_ex :
    offset_point_spec (1, 0) (0, 0) (0, 1) 1 = some (-Real.sqrt 2, 0) := by
  have hs2 : Real.sqrt 2 ≠ 0 := by positivity
  have hmul : Real.sqrt 2 * Real.sqrt 2 = 2 := Real.mul_self_sqrt (by norm_num)
  have hdir : 3 * π / 4 + π / 4 = π := by ring
  unfold offset_point_spec
  norm_num [atan2_one_zero, degrees_pi_div_two, radians_45, Real.sin_pi_div_four,
    sqrt_two_div_two_ne_zero, atan2_one_neg_one, hdir, Real.cos_pi, Real.sin_pi]

/-! ### `geo.py`: pseudo-3D perspective projection -/

/-- Minimum x over the coordinates (shapely `bounds`, nonempty rings). -/
noncomputable def xmin : List Point → ℝ
  | [] => 0
  | p :: ps => (ps.map Prod.fst).foldl min p.1

/-- Maximum x over the coordinates. -/
noncomputable def xmax : List Point → ℝ
  | [] => 0
  | p :: ps => (ps.map Prod.fst).foldl max p.1

/-- Minimum y over the coordinates. -/
noncomputable def ymin : List Point → ℝ
  | [] => 0
  | p :: ps => (ps.map Prod.snd).foldl min p.2

/-- Maximum y over the coordinates. -/
noncomputable def ymax : List Point → ℝ
  | [] => 0
  | p :: ps => (ps.map Prod.snd).foldl max p.2

/-- Embedding of the inner `transform_point` of `geo.perspective_by_angle`.
The division `distance / (distance + z)` raises `ZeroDivisionError` in Python
when `distance + z` is exactly zero; that failure is modelled by `none`. -/
noncomputable def transform_point (cx cy angle distance : ℝ) (p : Point) :
    Option Point :=
  let rel_x := p.1 - cx
  let rel_y := p.2 - cy
  let z := rel_x * Real.sin angle
  let x_rotated := rel_x * Real.cos angle
  if distance + z = 0 then none
  else
    let scale := distance / (distance + z)
    some (cx + x_rotated * scale, cy + rel_y * scale)

/-- `transform_point` applied to every coordinate; the source has no handler,
so a division failure at any vertex aborts the whole projection (`none`). -/
noncomputable def transform_all (cx cy angle distance : ℝ) :
    List Point → Option (List Point)
  | [] => some []
  | p :: ps =>
    match transform_point cx cy angle distance p with
    | none => none
    | some q =>
      match transform_all cx cy angle distance ps with
      | none => none
      | some qs => some (q :: qs)

/-- Embedding of `geo.perspective_by_angle` on the exterior coordinates. -/
noncomputable def perspective_by_angle (coords : List Point)
    (angle_degrees distance : ℝ) : Option (List Point) :=
  let angle := radians angle_degrees
  let center_x := (xmin coords + xmax coords) / 2
  let center_y := (ymin coords + ymax coords) / 2
  transform_all center_x center_y angle distance coords

lemma radians_90 : radians 90 = π / 2 := by
  unfold radians; ring

/-! ### `sketch_snowflake_card.py`: the layered scene graph (`PolygonGroup`)

The geometry payload is abstracted by a type parameter `α` (shapely
`BaseGeometry` values are opaque to the group logic). -/

/-- Embedding of `PolygonStoreEntry`: one leaf of the scene graph. -/
structure PolygonStoreEntry (α : Type) where
  layer : Int
  geometry : α
  name : String
deriving DecidableEq

/-- Embedding of `PolygonGroup`: its own name, its leaf entries
(`self.polygons`, in insertion order) and its child groups
(`self.groups`, an insertion-ordered dict keyed by the `add_group` name). -/
inductive PolygonGroup (α : Type) : Type where
  | mk : String → List (PolygonStoreEntry α) → List (String × PolygonGroup α) →
      PolygonGroup α

/-- The group's own name (`self.name`). -/
def PolygonGroup.name {α : Type} : PolygonGroup α → String
  | .mk n _ _ => n

/-- The group's leaf entries (`self.polygons`). -/
def PolygonGroup.polygons {α : Type} : PolygonGroup α → List (PolygonStoreEntry α)
  | .mk _ p _ => p

/-- The group's child groups (`self.groups`), as an insertion-ordered
association list. -/
def PolygonGroup.groups {α : Type} :
    PolygonGroup α → List (String × PolygonGroup α)
  | .mk _ _ g => g

/-- Embedding of `PolygonGroup.add_polygon`: unconditionally append a leaf. -/
def add_polygon {α : Type} (g : PolygonGroup α) (polygon : α) (layer : Int)
    (nm : String) : PolygonGroup α :=
  match g with
  | .mk n polys groups => .mk n (polys ++ [⟨layer, polygon, nm⟩]) groups

/-- Embedding of `PolygonGroup.add_geom`: identical to `add_polygon`. -/
def add_geom {α : Type} (g : PolygonGroup α) (geometry : α) (layer : Int)
    (nm : String) : PolygonGroup α :=
  match g with
  | .mk n polys groups => .mk n (polys ++ [⟨layer, geometry, nm⟩]) groups

/-- Embedding of `PolygonGroup.add_group`.  The first component models the
raised `ValueError` (`some` message when `name` is already a key of
`self.groups`); the second is the state of the group afterwards — unchanged
when the error is raised, since Python raises before inserting.  The
`change_layer` parameter of the source is accepted and ignored, as in the
source. -/
def add_group {α : Type} (g : PolygonGroup α) (child : PolygonGroup α)
    (nm : String) (change_layer : Option Int) :
    Option String × PolygonGroup α :=
  match g with
  | .mk n polys groups =>
    if nm ∈ groups.map Prod.fst then
      (some ("Group " ++ nm ++ " already exists"), .mk n polys groups)
    else
      (none, .mk n polys (groups ++ [(nm, child)]))

mutual

/-- Embedding of `PolygonGroup.all_geometries`: the group's own leaves,
then, for each child group in insertion order, its flattened entries with
`self.name ++ "/"` prepended to their names. -/
def all_geometries {α : Type} : PolygonGroup α → List (PolygonStoreEntry α)
  | .mk n polys groups => polys ++ all_geometries_children n groups

/-- The child-group part of `all_geometries` (the list comprehension). -/
def all_geometries_children {α : Type} (n : String) :
    List (String × PolygonGroup α) → List (PolygonStoreEntry α)
  | [] => []
  | (_, g) :: rest =>
    ((all_geometries g).map fun e => ⟨e.layer, e.geometry, n ++ "/" ++ e.name⟩) ++
      all_geometries_children n rest

end

/-- Join a path of ancestor names onto a leaf name with `/`. -/
def join_path : List String → String → String
  | [], nm => nm
  | a :: as_, nm => a ++ "/" ++ join_path as_ nm

mutual

/-- The amended flattening rule, written from the amended claim: a pre-order
traversal in which each leaf's qualified name is the `/`-join of the names of
the groups *strictly above its containing group* (so leaves directly in the
root are unprefixed), followed by the leaf's own name. -/
def flatten_amended {α : Type} (anc : List String) :
    PolygonGroup α → List (PolygonStoreEntry α)
  | .mk n polys groups =>
    (polys.map fun e => ⟨e.layer, e.geometry, join_path anc e.name⟩) ++
      flatten_amended_children (anc ++ [n]) groups

/-- The child part of `flatten_amended`. -/
def flatten_amended_children {α : Type} (anc : List String) :
    List (String × PolygonGroup α) → List (PolygonStoreEntry α)
  | [] => []
  | (_, g) :: rest => flatten_amended anc g ++ flatten_amended_children anc rest

end

lemma join_path_snoc (as_ : List String) (a nm : String) :
    join_path (as_ ++ [a]) nm = join_path as_ (a ++ "/" ++ nm) := by
  induction as_ with
  | nil => rfl
  | cons b bs ih => simp [join_path, ih]

mutual

theorem flatten_amended_eq {α : Type} :
    ∀ (g : PolygonGroup α) (anc : List String),
      flatten_amended anc g =
        (all_geometries g).map fun e => ⟨e.layer, e.geometry, join_path anc e.name⟩
  | .mk n polys groups, anc => by
    rw [flatten_amended, all_geometries, List.map_append]
    congr 1
    exact flatten_amended_children_eq groups n anc

theorem flatten_amended_children_eq {α : Type} :
    ∀ (l : List (String × PolygonGroup α)) (n : String) (anc : List String),
      flatten_amended_children (anc ++ [n]) l =
        (all_geometries_children n l).map fun e =>
          ⟨e.layer, e.geometry, join_path anc e.name⟩
  | [], _, _ => rfl
  | (s, g) :: rest, n, anc => by
    rw [flatten_amended_children, all_geometries_children, List.map_append]
    congr 1
    · rw [flatten_amended_eq g (anc ++ [n]), List.map_map]
      have hf : (fun e : PolygonStoreEntry α =>
            (⟨e.layer, e.geometry, join_path (anc ++ [n]) e.name⟩ :
              PolygonStoreEntry α)) =
          (fun e : PolygonStoreEntry α =>
            (⟨e.layer, e.geometry, join_path anc (n ++ "/" ++ e.name)⟩ :
              PolygonStoreEntry α)) := by
        funext e
        simp [join_path_snoc]
      rw [hf]
      rfl
    · exact flatten_amended_children_eq rest n anc

end

/-! ### `sketch_snowflake_card.py`: the elongated-hexagon primitive -/

/-- The six vertices built by `elongated_hexagon` for a given (possibly
corrected) length. -/
noncomputable def hexagon_points (x y length inset_distance thickness : ℝ) :
    List Point :=
  [(x, y),
   (x + inset_distance, y - thickness / 2),
   (x + length - inset_distance, y - thickness / 2),
   (x + length, y),
   (x + length - inset_distance, y + thickness / 2),
   (x + inset_distance, y + thickness / 2)]

/-- Embedding of `SnowflakeCardSketch.elongated_hexagon`.  When the length is
at most twice the inset distance, the source asserts `fix`: a failed assert
(an `AssertionError`) is modelled by `Except.error`; with `fix` set, the
length is silently replaced by `inset_distance * 2 + 0.1`. -/
noncomputable def elongated_hexagon (x y length thickness : ℝ) (fix : Bool) :
    Except String (List Point) :=
  let inset_distance := Real.tan (radians 30) * thickness * 0.5
  if length ≤ inset_distance * 2 then
    if fix then
      Except.ok (hexagon_points x y (inset_distance * 2 + 0.1) inset_distance
        thickness)
    else
      Except.error "Length must be greater than inset distance * 2"
  else
    Except.ok (hexagon_points x y length inset_distance thickness)

/-! ### `sketch_snowflake_card.py`: triangular lattice sampling -/

/-- `math.isclose a b abs_tol=0.00001` with the default `rel_tol=1e-09`:
`|a - b| ≤ max(rel_tol * max(|a|, |b|), abs_tol)`. -/
noncomputable def isclose (a b : ℝ) : Prop :=
  |a - b| ≤ max (1e-9 * max |a| |b|) 1e-5

noncomputable instance (a b : ℝ) : Decidable (isclose a b) :=
  inferInstanceAs (Decidable (|a - b| ≤ max (1e-9 * max |a| |b|) 1e-5))

/-- The `in_accumulator` helper of `triangular_grid`: is some accumulated
point close to `(nx, ny)` in both coordinates? -/
noncomputable def in_accumulator (acc : List Point) (nx ny : ℝ) : Prop :=
  ∃ p ∈ acc, isclose p.1 nx ∧ isclose p.2 ny

noncomputable instance (acc : List Point) (nx ny : ℝ) :
    Decidable (in_accumulator acc nx ny) :=
  inferInstanceAs (Decidable (∃ p ∈ acc, isclose p.1 nx ∧ isclose p.2 ny))

/-- One candidate direction of the inner `for i in range(6)` loop of
`triangular_grid`: state is `(accumulator, queue)`. -/
noncomputable def grid_step (sx sy spacing distance angle_degrees : ℝ)
    (current : Point) (st : List Point × List Point) (i : ℕ) :
    List Point × List Point :=
  let angle := radians ((i : ℝ) * 60 + angle_degrees)
  let new_x := current.1 + Real.cos angle * spacing
  let new_y := current.2 + Real.sin angle * spacing
  let line_length := Real.sqrt ((new_x - sx) ^ 2 + (new_y - sy) ^ 2)
  if line_length ≤ distance ∧ ¬ in_accumulator st.1 new_x new_y then
    (st.1 ++ [(new_x, new_y)], st.2 ++ [(new_x, new_y)])
  else st

/-- The `while queue:` loop of `triangular_grid`, indexed by fuel (an upper
bound on the number of loop iterations; the safety invariants below hold for
every fuel). -/
noncomputable def triangular_grid_loop (sx sy spacing distance angle_degrees : ℝ) :
    ℕ → List Point → List Point → List Point
  | 0, acc, _ => acc
  | _ + 1, acc, [] => acc
  | fuel + 1, acc, current :: rest =>
    let st := (List.range 6).foldl
      (grid_step sx sy spacing distance angle_degrees current) (acc, rest)
    triangular_grid_loop sx sy spacing distance angle_degrees fuel st.1 st.2

/-- Embedding of `SnowflakeCardSketch.triangular_grid`: breadth-first
generation starting from the seed `(sx, sy)`, both accumulated and queued. -/
noncomputable def triangular_grid (sx sy spacing distance angle_degrees : ℝ)
    (fuel : ℕ) : List Point :=
  triangular_grid_loop sx sy spacing distance angle_degrees fuel
    [(sx, sy)] [(sx, sy)]

/-- The two safety invariants of the accumulator: every point is within
`distance` of the seed, and no two accumulated points are close (in the
`math.isclose` sense) in both coordinates. -/
def grid_invariant (sx sy distance : ℝ) (acc : List Point) : Prop :=
  (∀ p ∈ acc, Real.sqrt ((p.1 - sx) ^ 2 + (p.2 - sy) ^ 2) ≤ distance) ∧
    acc.Pairwise fun p q => ¬ (isclose p.1 q.1 ∧ isclose p.2 q.2)

lemma grid_step_invariant (sx sy spacing distance angle_degrees : ℝ)
    (current : Point) (st : List Point × List Point) (i : ℕ)
    (h : grid_invariant sx sy distance st.1) :
    grid_invariant sx sy distance
      (grid_step sx sy spacing distance angle_degrees current st i).1 := by
  unfold grid_step
  simp only
  split
  · rename_i hcond
    obtain ⟨hlen, hnotin⟩ := hcond
    constructor
    · intro p hp
      rcases List.mem_append.mp hp with hp | hp
      · exact h.1 p hp
      · rcases List.mem_singleton.mp hp with rfl
        exact hlen
    · rw [List.pairwise_append]
      refine ⟨h.2, List.pairwise_singleton _ _, ?_⟩
      intro a ha b hb
      rcases List.mem_singleton.mp hb with rfl
      intro hclose
      exact hnotin ⟨a, ha, hclose⟩
  · exact h

lemma grid_fold_invariant (sx sy spacing distance angle_degrees : ℝ)
    (current : Point) (l : List ℕ) (st : List Point × List Point)
    (h : grid_invariant sx sy distance st.1) :
    grid_invariant sx sy distance
      (l.foldl (grid_step sx sy spacing distance angle_degrees current) st).1 := by
  induction l generalizing st with
  | nil => exact h
  | cons i rest ih =>
    exact ih _ (grid_step_invariant sx sy spacing distance angle_degrees
      current st i h)

lemma triangular_grid_loop_invariant (sx sy spacing distance angle_degrees : ℝ)
    (fuel : ℕ) (acc queue : List Point)
    (h : grid_invariant sx sy distance acc) :
    grid_invariant sx sy distance
      (triangular_grid_loop sx sy spacing distance angle_degrees fuel acc queue) := by
  induction fuel generalizing acc queue with
  | zero => exact h
  | succ fuel ih =>
    cases queue with
    | nil => exact h
    | cons current rest =>
      rw [triangular_grid_loop]
      exact ih _ _ (grid_fold_invariant sx sy spacing distance angle_degrees
        current (List.range 6) (acc, rest) h)

lemma triangular_grid_invariant (sx sy spacing distance angle_degrees : ℝ)
    (fuel : ℕ) (hd : 0 ≤ distance) :
    grid_invariant sx sy distance
      (triangular_grid sx sy spacing distance angle_degrees fuel) := by
  unfold triangular_grid
  apply triangular_grid_loop_invariant
  constructor
  · intro p hp
    rcases List.mem_singleton.mp hp with rfl
    simp only [sub_self]
    rw [show (0 : ℝ) ^ 2 + 0 ^ 2 = 0 by ring, Real.sqrt_zero]
    exact hd
  · exact List.pairwise_singleton _ _

/-! ### `sketch_snowflake_card.py`: dendrite branch configurations

The pseudo-random capability `random(a, b)` (vsketch's seeded uniform draw)
is modelled by an explicit stream `us : ℕ → ℝ` of unit-interval values: the
`k`-th call with bounds `(a, b)` returns `a + us k * (b - a)`. -/

/-- Embedding of the `BranchConfig` dataclass. -/
structure BranchConfig where
  offset : ℝ
  length : ℝ
  thickness : ℝ

/-- The `k`-th pseudo-random draw `random(a, b)` realised from the stream. -/
noncomputable def uniform_draw (us : ℕ → ℝ) (k : ℕ) (a b : ℝ) : ℝ :=
  a + us k * (b - a)

/-- The `for branch in range(1, number_of_branches+1)` loop of
`random_branch_config`.  Arguments: remaining iterations, the 1-based branch
index, the index of the next stream draw (each iteration consumes two draws:
length, then thickness), the current `thickness` value (rebound every
iteration by the source), and the fern-mode `first_length` cell. -/
noncomputable def branch_loop (us : ℕ → ℝ) (fern_like : Bool) (n : ℕ)
    (offset_start offset_end radius : ℝ) :
    ℕ → ℕ → ℕ → ℝ → Option ℝ → List BranchConfig
  | 0, _, _, _, _ => []
  | rem + 1, branch, k, thickness, first_length =>
    let offset := ((offset_end - offset_start) / (n : ℝ)) * (branch : ℝ) +
      offset_start
    if fern_like then
      let fl := first_length.getD offset
      let this_branch_reduction := fl * (branch : ℝ) / (n : ℝ)
      let length := fl -
        uniform_draw us k (this_branch_reduction * (5 / 6)) this_branch_reduction
      let t := uniform_draw us (k + 1) (thickness * 0.5) thickness
      ⟨offset, length, t⟩ ::
        branch_loop us fern_like n offset_start offset_end radius rem
          (branch + 1) (k + 2) t (some fl)
    else
      let longest := min offset (radius - offset)
      let length := uniform_draw us k (longest / 2) longest
      let t := uniform_draw us (k + 1) (thickness * 0.5) thickness
      ⟨offset, length, t⟩ ::
        branch_loop us fern_like n offset_start offset_end radius rem
          (branch + 1) (k + 2) t first_length

/-- Embedding of `SnowflakeCardSketch.random_branch_config`: draw the
fern-like flag from `random(0, 1) < 0.2`, the branch count from
`ceil(random(2, 4))`, the offsets from `random(radius/9, radius/5)` and
`random(radius*0.9, radius)`, then run the branch loop. -/
noncomputable def random_branch_config (radius thickness : ℝ) (us : ℕ → ℝ) :
    List BranchConfig :=
  let fern_like : Bool := if uniform_draw us 0 0 1 < 0.2 then true else false
  let number_of_branches : ℤ := ⌈uniform_draw us 1 2 4⌉
  let offset_start := uniform_draw us 2 (radius / 9) (radius / 5)
  let offset_end := uniform_draw us 3 (radius * 0.9) radius
  branch_loop us fern_like number_of_branches.toNat offset_start offset_end
    radius number_of_branches.toNat 1 4 thickness none

lemma branch_loop_length (us : ℕ → ℝ) (fern_like : Bool) (n : ℕ)
    (offset_start offset_end radius : ℝ) (rem branch k : ℕ) (thickness : ℝ)
    (first_length : Option ℝ) :
    (branch_loop us fern_like n offset_start offset_end radius rem branch k
      thickness first_length).length = rem := by
  induction rem generalizing branch k thickness first_length with
  | zero => rfl
  | succ rem ih =>
    rw [branch_loop]
    split
    · simp only [List.length_cons, ih]
    · simp only [List.length_cons, ih]

lemma random_branch_config_length (radius thickness : ℝ) (us : ℕ → ℝ) :
    (random_branch_config radius thickness us).length =
      (⌈uniform_draw us 1 2 4⌉).toNat := by
  unfold random_branch_config
  simp only
  rw [branch_loop_length]

/-! ### Additional helper lemmas for the claim theorems -/

lemma radians_30 : radians 30 = π / 6 := by
  unfold radians; ring

lemma tan_radians_30_nonneg : 0 ≤ Real.tan (radians 30) := by
  rw [radians_30]
  apply Real.tan_nonneg_of_nonneg_of_le_pi_div_two
  · positivity
  · linarith [Real.pi_pos]

/-- The square ring used as a concrete witness input (closed, as shapely
emits exterior coordinates). -/
def ex_square : List Point := [(0, 0), (1, 0), (1, 1), (0, 1), (0, 0)]

/-- The unit-interval stream whose count draw (call 1) is 0.9. -/
noncomputable def ex_us : ℕ → ℝ := fun k => if k = 1 then 9 / 10 else 0

/-- The all-zeros unit-interval stream. -/
def zero_us : ℕ → ℝ := fun _ => 0

/-- Example tree: a leaf directly in the root group "snowflake card". -/
def ex_root : PolygonGroup Unit := .mk "snowflake card" [⟨2, (), "leaf1"⟩] []

/-- Example tree: root "r" with a child keyed and named "c" holding leaf
"x". -/
def ex_root2 : PolygonGroup Unit :=
  .mk "r" [] [("c", .mk "c" [⟨1, (), "x"⟩] [])]

/-- Parent group that already has a child under key "x". -/
def ex_parent : PolygonGroup Unit := .mk "A" [] [("x", .mk "xg" [] [])]

/-- A different parent group with no children. -/
def ex_parent2 : PolygonGroup Unit := .mk "B" [] []

/-- A child group to insert. -/
def ex_child : PolygonGroup Unit := .mk "child" [] []

end Snowflake

namespace Snowflake

/-! ## Claim theorems -/

/-- C1, counterexample: at prev = (1,0), cur = (0,0), next = (0,1),
distance = 1, the source's offset vertex is (-1,-1) while the spec's stated
rule — whose direction angle is based at `atan2(next.y - prev.y,
next.x - prev.x)` — yields (-√2, 0).  The claim as stated is false. -/
theorem c1_offset_rule_counterexample :
    offset_point (1, 0) (0, 0) (0, 1) 1 ≠
      offset_point_spec (1, 0) (0, 0) (0, 1) 1 := by
  rw [offset_point_ex, offset_point_spec_ex]
  intro h
  simp only [Option.some.injEq, Prod.mk.injEq] at h
  exact absurd h.2 (by norm_num)

/-- C1, amended: for every vertex triple and offset distance the mitered
offset computes the new vertex exactly by the spec's rule with the direction
angle based at `atan2(cur.y - prev.y, cur.x - prev.x)` (interior angle via
`atan2(cross, dot)` normalized to [0°,360°), magnitude
`distance / sin(radians(θ/2))`, new vertex `cur + magnitude * (cos, sin)` all
as stated). -/
theorem c1_offset_rule_amended (p1 p2 p3 : Point) (d : ℝ) :
    offset_point p1 p2 p3 d = offset_point_amended p1 p2 p3 d := by
  unfold offset_point offset_point_amended calculate_angle
  simp

/-- C2: for every exterior coordinate list (with at least two de-duplicated
vertices) and distance, `create_offset_polygon` is total (the
`ZeroDivisionError` of `offset_point` is caught), it emits exactly one output
vertex per de-duplicated input vertex, and at any vertex where
`sin(radians(θ/2))` is exactly zero the original vertex is kept unmoved. -/
theorem c2_offset_polygon_total (coords : List Point) (d : ℝ)
    (h : 2 ≤ (dedup_ring coords).length) :
    (create_offset_polygon coords d).length = (dedup_ring coords).length ∧
    ∀ p1 p2 p3 : Point,
      Real.sin (radians (calculate_angle p1 p2 p3 true / 2)) = 0 →
      offset_or_keep p1 p2 p3 d = p2 := by
  constructor
  · unfold create_offset_polygon polygon_coord_windows
    rw [List.length_map, coord_windows_length _ h]
  · intro p1 p2 p3 hs
    exact offset_or_keep_of_sin_eq_zero p1 p2 p3 d hs

/-- C2, witness: the unit square ring. -/
theorem c2_offset_polygon_total_witness :
    2 ≤ (dedup_ring ex_square).length ∧
    ((create_offset_polygon ex_square 1).length = (dedup_ring ex_square).length ∧
     ∀ p1 p2 p3 : Point,
       Real.sin (radians (calculate_angle p1 p2 p3 true / 2)) = 0 →
       offset_or_keep p1 p2 p3 1 = p2) := by
  have h : 2 ≤ (dedup_ring ex_square).length := by
    simp [dedup_ring, ex_square]
  exact ⟨h, c2_offset_polygon_total ex_square 1 h⟩

/-- C3: evaluating the code at the failing input.  For the rectangle
[(-10,-1),(10,-1),(10,1),(-10,1)] at angle 90° and camera distance 10 the
vertex (-10,-1) has `distance + z = 0`; the source's division is unguarded,
so the Python call raises `ZeroDivisionError` and the whole projection
aborts (modelled: `none`), instead of recovering or skipping that vertex as
the claim requires. -/
theorem c3_perspective_unguarded :
    perspective_by_angle [(-10, -1), (10, -1), (10, 1), (-10, 1), (-10, -1)]
      90 10 = none := by
  unfold perspective_by_angle
  norm_num [xmin, xmax, ymin, ymax, min_def, max_def]
  rw [transform_all]
  have ht : transform_point 0 0 (radians 90) 10 (-10, -1) = none := by
    unfold transform_point
    rw [radians_90]
    norm_num [Real.sin_pi_div_two]
  rw [ht]

/-- C4: for every triple with p1 ≠ p2 and p3 ≠ p2, `calculate_angle` in
`use_360` mode returns a value in [0°, 360°), and it matches the
trigonometric ground truth at the three sample triples within 0.001°. -/
theorem c4_calculate_angle_range_and_values :
    (∀ p1 p2 p3 : Point, p1 ≠ p2 → p3 ≠ p2 →
      0 ≤ calculate_angle p1 p2 p3 true ∧ calculate_angle p1 p2 p3 true < 360) ∧
    |calculate_angle (1, 0) (0, 0) (1, 1) true - 45| ≤ 0.001 ∧
    |calculate_angle (1, 0) (0, 0) (0, 1) true - 90| ≤ 0.001 ∧
    |calculate_angle (1, 0) (0, 0) (-1, 0) true - 180| ≤ 0.001 := by
  refine ⟨fun p1 p2 p3 _ _ => calculate_angle_mem p1 p2 p3, ?_, ?_, ?_⟩
  · rw [calculate_angle_45]; norm_num
  · rw [calculate_angle_90]; norm_num
  · rw [calculate_angle_180]; norm_num

/-- C4, witness: the 45° triple, with both non-degeneracy hypotheses
discharged. -/
theorem c4_calculate_angle_witness :
    0 ≤ calculate_angle (1, 0) (0, 0) (1, 1) true ∧
    calculate_angle (1, 0) (0, 0) (1, 1) true < 360 :=
  c4_calculate_angle_range_and_values.1 (1, 0) (0, 0) (1, 1)
    (by norm_num [Prod.ext_iff]) (by norm_num [Prod.ext_iff])

/-- C5: for every seed, spacing, angle and nonnegative radial bound (and any
fuel for the breadth-first loop), every emitted lattice point lies within the
radial bound of the seed, and no two emitted points coincide within the 1e-5
absolute tolerance in both coordinates. -/
theorem c5_lattice_bounds (sx sy spacing distance angle_degrees : ℝ)
    (fuel : ℕ) (hd : 0 ≤ distance) :
    (∀ p ∈ triangular_grid sx sy spacing distance angle_degrees fuel,
      Real.sqrt ((p.1 - sx) ^ 2 + (p.2 - sy) ^ 2) ≤ distance) ∧
    (triangular_grid sx sy spacing distance angle_degrees fuel).Pairwise
      (fun p q => ¬ (|p.1 - q.1| ≤ 1e-5 ∧ |p.2 - q.2| ≤ 1e-5)) := by
  have h := triangular_grid_invariant sx sy spacing distance angle_degrees
    fuel hd
  refine ⟨h.1, h.2.imp ?_⟩
  intro p q hnc hab
  apply hnc
  constructor
  · unfold isclose
    exact le_trans hab.1 (le_max_right _ _)
  · unfold isclose
    exact le_trans hab.2 (le_max_right _ _)

/-- C5, witness: seed (0,0), spacing 1, bound 1, angle 0, fuel 0. -/
theorem c5_lattice_bounds_witness :
    (∀ p ∈ triangular_grid 0 0 1 1 0 0,
      Real.sqrt ((p.1 - 0) ^ 2 + (p.2 - 0) ^ 2) ≤ 1) ∧
    (triangular_grid 0 0 1 1 0 0).Pairwise
      (fun p q => ¬ (|p.1 - q.1| ≤ 1e-5 ∧ |p.2 - q.2| ≤ 1e-5)) :=
  c5_lattice_bounds 0 0 1 1 0 0 (by norm_num)

/-- C6, counterexample: with the count draw at 0.9 the generator yields
`ceil(uniform(2,4)) = 4` records, not `ceil(uniform(2,5)) = 5` as the claim
states. -/
theorem c6_branch_count_counterexample :
    (random_branch_config 1 (1 / 10) ex_us).length ≠
      (⌈uniform_draw ex_us 1 2 5⌉).toNat := by
  rw [random_branch_config_length]
  have h4 : ⌈uniform_draw ex_us 1 2 4⌉ = 4 := by
    unfold uniform_draw ex_us
    rw [Int.ceil_eq_iff] <;> norm_num
  have h5 : ⌈uniform_draw ex_us 1 2 5⌉ = 5 := by
    unfold uniform_draw ex_us
    rw [Int.ceil_eq_iff] <;> norm_num
  rw [h4, h5]
  decide

/-- C6, amended: every call of the branch-configuration generator (on a
unit-interval stream and positive radius) yields exactly
`ceil(uniform(2,4))` BranchConfig records — an integer between 2 and 4 —
with `offset_start` drawn from `uniform(radius/9, radius/5)` and
`offset_end` drawn from `uniform(radius*0.9, radius)` (fern-like mode is
chosen exactly when the `uniform(0,1)` draw is below 0.2). -/
theorem c6_branch_config_amended (radius thickness : ℝ) (us : ℕ → ℝ)
    (hu : ∀ k, 0 ≤ us k ∧ us k < 1) (hr : 0 < radius) :
    (random_branch_config radius thickness us).length =
      (⌈uniform_draw us 1 2 4⌉).toNat ∧
    2 ≤ (random_branch_config radius thickness us).length ∧
    (random_branch_config radius thickness us).length ≤ 4 ∧
    (radius / 9 ≤ uniform_draw us 2 (radius / 9) (radius / 5) ∧
      uniform_draw us 2 (radius / 9) (radius / 5) < radius / 5) ∧
    (radius * 0.9 ≤ uniform_draw us 3 (radius * 0.9) radius ∧
      uniform_draw us 3 (radius * 0.9) radius < radius) ∧
    ((uniform_draw us 0 0 1 < 0.2) ↔ us 0 < 0.2) := by
  have hlen := random_branch_config_length radius thickness us
  have hu0 := hu 0
  have hu1 := hu 1
  have hu2 := hu 2
  have hu3 := hu 3
  have hval : (2 : ℝ) ≤ uniform_draw us 1 2 4 ∧ uniform_draw us 1 2 4 < 4 := by
    unfold uniform_draw
    constructor <;> nlinarith [hu1.1, hu1.2]
  have hge : (2 : ℤ) ≤ ⌈uniform_draw us 1 2 4⌉ := by
    rw [Int.le_ceil_iff]
    push_cast
    linarith [hval.1]
  have hle : ⌈uniform_draw us 1 2 4⌉ ≤ (4 : ℤ) := by
    rw [Int.ceil_le]
    push_cast
    linarith [hval.2]
  refine ⟨hlen, ?_, ?_, ?_, ?_, ?_⟩
  · rw [hlen]; omega
  · rw [hlen]; omega
  · unfold uniform_draw
    constructor <;> nlinarith [hu2.1, hu2.2, hr]
  · unfold uniform_draw
    constructor <;> nlinarith [hu3.1, hu3.2, hr]
  · unfold uniform_draw
    constructor <;> intro h <;> nlinarith [hu0.1, hu0.2]

/-- C6, witness: the all-zeros stream with radius 1 and thickness 1/10. -/
theorem c6_branch_config_witness :
    (random_branch_config 1 (1 / 10) zero_us).length =
      (⌈uniform_draw zero_us 1 2 4⌉).toNat ∧
    2 ≤ (random_branch_config 1 (1 / 10) zero_us).length ∧
    (random_branch_config 1 (1 / 10) zero_us).length ≤ 4 ∧
    ((1 : ℝ) / 9 ≤ uniform_draw zero_us 2 (1 / 9) (1 / 5) ∧
      uniform_draw zero_us 2 (1 / 9) (1 / 5) < 1 / 5) ∧
    ((1 : ℝ) * 0.9 ≤ uniform_draw zero_us 3 (1 * 0.9) 1 ∧
      uniform_draw zero_us 3 (1 * 0.9) 1 < 1) ∧
    ((uniform_draw zero_us 0 0 1 < 0.2) ↔ zero_us 0 < 0.2) := by
  have h := c6_branch_config_amended 1 (1 / 10) zero_us
    (by intro k; unfold zero_us; norm_num) (by norm_num)
  simpa using h

/-- C7, counterexample: a leaf stored directly in the root group
"snowflake card" flattens with qualified name "leaf1" — no
"snowflake card/" prefix — and a depth-1 leaf "x" in child "c" of root "r"
flattens as "r/x", not the full ancestor path "r/c/x". -/
theorem c7_flatten_counterexample :
    ((all_geometries ex_root).map (fun e => e.name) = ["leaf1"] ∧
      ("snowflake card/".isPrefixOf "leaf1") = false) ∧
    ((all_geometries ex_root2).map (fun e => e.name) = ["r/x"] ∧
      "r/x" ≠ "r/c/x") := by
  refine ⟨⟨rfl, rfl⟩, ⟨rfl, by decide⟩⟩

/-- C7, amended: flattening is a pre-order traversal (a group's own leaves
first, then each child subtree in insertion order) in which each entry's
qualified name is the '/'-join of the names of the groups strictly above its
containing group, followed by the leaf's own name — the containing group's
name is omitted, so leaves directly under the root carry no prefix, while
every leaf in a proper subgroup of a root named "snowflake card" begins with
"snowflake card/". -/
theorem c7_flatten_amended (α : Type) (g : PolygonGroup α) :
    all_geometries g = flatten_amended [] g := by
  rw [flatten_amended_eq]
  have hf : (fun e : PolygonStoreEntry α =>
      (⟨e.layer, e.geometry, join_path [] e.name⟩ : PolygonStoreEntry α)) =
      fun e => e := by
    funext e
    rfl
  rw [hf, List.map_id']

/-- C8: for every centre, length and thickness with
`length ≤ 2 * (tan(30°) * thickness / 2)`, constructing the elongated
hexagon without the auto-correct flag fails (the assertion raises), while
with the flag set it succeeds, silently replacing the length by the minimum
value the source deems valid (`2 * inset + 0.1`) and returning the 6-vertex
hexagon. -/
theorem c8_elongated_hexagon (x y length thickness : ℝ)
    (h : length ≤ 2 * (Real.tan (radians 30) * thickness / 2)) :
    (∃ msg, elongated_hexagon x y length thickness false = Except.error msg) ∧
    ∃ pts, elongated_hexagon x y length thickness true = Except.ok pts ∧
      pts.length = 6 ∧
      pts = hexagon_points x y
        (Real.tan (radians 30) * thickness * 0.5 * 2 + 0.1)
        (Real.tan (radians 30) * thickness * 0.5) thickness := by
  have hcond : length ≤ Real.tan (radians 30) * thickness * 0.5 * 2 := by
    have he : 2 * (Real.tan (radians 30) * thickness / 2) =
        Real.tan (radians 30) * thickness * 0.5 * 2 := by ring
    rwa [he] at h
  have hfalse : elongated_hexagon x y length thickness false =
      Except.error "Length must be greater than inset distance * 2" := by
    simp only [elongated_hexagon]
    rw [if_pos hcond]
    rfl
  have htrue : elongated_hexagon x y length thickness true =
      Except.ok (hexagon_points x y
        (Real.tan (radians 30) * thickness * 0.5 * 2 + 0.1)
        (Real.tan (radians 30) * thickness * 0.5) thickness) := by
    simp only [elongated_hexagon]
    rw [if_pos hcond]
    rfl
  exact ⟨⟨_, hfalse⟩, _, htrue, rfl, rfl⟩

/-- C8, witness: length 0, thickness 1 (0 ≤ 2·(tan 30°·1/2) since tan 30°
is nonnegative). -/
theorem c8_elongated_hexagon_witness :
    ((0 : ℝ) ≤ 2 * (Real.tan (radians 30) * 1 / 2)) ∧
    ((∃ msg, elongated_hexagon 0 0 0 1 false = Except.error msg) ∧
     ∃ pts, elongated_hexagon 0 0 0 1 true = Except.ok pts ∧
       pts.length = 6 ∧
       pts = hexagon_points 0 0
         (Real.tan (radians 30) * 1 * 0.5 * 2 + 0.1)
         (Real.tan (radians 30) * 1 * 0.5) 1) := by
  have hh : (0 : ℝ) ≤ 2 * (Real.tan (radians 30) * 1 / 2) := by
    have := tan_radians_30_nonneg
    nlinarith
  exact ⟨hh, c8_elongated_hexagon 0 0 0 1 hh⟩

/-- C9: adding a child group under a name already present among a group's
children raises the duplicate-name `ValueError` and leaves the group
unchanged (the insert is not performed); adding a child under a name not
present — in particular the same name under a different parent — succeeds
and appends the child, leaving everything else untouched. -/
theorem c9_add_group_duplicate (α : Type) (g child : PolygonGroup α)
    (nm : String) (cl : Option Int) :
    (nm ∈ g.groups.map Prod.fst →
      (add_group g child nm cl).1 = some ("Group " ++ nm ++ " already exists") ∧
      (add_group g child nm cl).2 = g) ∧
    (nm ∉ g.groups.map Prod.fst →
      (add_group g child nm cl).1 = none ∧
      (add_group g child nm cl).2.groups = g.groups ++ [(nm, child)] ∧
      (add_group g child nm cl).2.name = g.name ∧
      (add_group g child nm cl).2.polygons = g.polygons) := by
  cases g with
  | mk n polys groups =>
    constructor
    · intro hmem
      simp only [PolygonGroup.groups] at hmem
      simp [add_group, hmem]
    · intro hmem
      simp only [PolygonGroup.groups] at hmem
      simp [add_group, hmem, PolygonGroup.groups, PolygonGroup.name,
        PolygonGroup.polygons]

/-- C9, witness: inserting under key "x" fails on `ex_parent` (which already
holds "x") leaving it unchanged, and succeeds on the different parent
`ex_parent2`. -/
theorem c9_add_group_witness :
    ("x" ∈ ex_parent.groups.map Prod.fst ∧
      (add_group ex_parent ex_child "x" none).1 =
        some ("Group " ++ "x" ++ " already exists") ∧
      (add_group ex_parent ex_child "x" none).2 = ex_parent) ∧
    ("x" ∉ ex_parent2.groups.map Prod.fst ∧
      (add_group ex_parent2 ex_child "x" none).1 = none ∧
      (add_group ex_parent2 ex_child "x" none).2.groups =
        ex_parent2.groups ++ [("x", ex_child)] ∧
      (add_group ex_parent2 ex_child "x" none).2.name = ex_parent2.name ∧
      (add_group ex_parent2 ex_child "x" none).2.polygons =
        ex_parent2.polygons) := by
  have hmem : "x" ∈ ex_parent.groups.map Prod.fst := by
    unfold ex_parent
    simp [PolygonGroup.groups]
  have hnot : "x" ∉ ex_parent2.groups.map Prod.fst := by
    unfold ex_parent2
    simp [PolygonGroup.groups]
  exact ⟨⟨hmem, (c9_add_group_duplicate Unit ex_parent ex_child "x" none).1 hmem⟩,
    ⟨hnot, (c9_add_group_duplicate Unit ex_parent2 ex_child "x" none).2 hnot⟩⟩

/-- C10: adding a leaf via `add_polygon` (or the identical `add_geom`)
always succeeds and appends the entry — leaf names are never checked for
uniqueness, so a group may hold several leaves with the same name; only
child-group names are subject to the duplicate check. -/
theorem c10_add_leaf_unchecked (α : Type) (g : PolygonGroup α) (a b : α)
    (l1 l2 : Int) (nm : String) :
    (add_polygon g a l1 nm).polygons = g.polygons ++ [⟨l1, a, nm⟩] ∧
    (add_polygon g a l1 nm).groups = g.groups ∧
    (add_polygon g a l1 nm).name = g.name ∧
    add_geom g a l1 nm = add_polygon g a l1 nm ∧
    (add_polygon (add_polygon g a l1 nm) b l2 nm).polygons =
      g.polygons ++ [⟨l1, a, nm⟩, ⟨l2, b, nm⟩] := by
  cases g with
  | mk n polys groups =>
    refine ⟨rfl, rfl, rfl, rfl, ?_⟩
    simp [add_polygon, PolygonGroup.polygons]

end Snowflake
